import Mathlib

/-!
Verification development for the `invidentes` assistive-vision repository.

The Python sources are shallowly embedded: pure functions become Lean
functions over `ℚ`/`ℤ`/`String`, stateful code becomes explicit state
passing, machine behaviour (Python `queue.Queue`, NumPy `int16`
wrap-around) is modelled explicitly.  Reference floating-point
arithmetic in the sources is modelled with exact rationals; every place
where that abstraction matters is noted next to the definition.
-/

namespace Invidentes

/-- Model of a Python `queue.Queue`.  Following CPython semantics,
`maxsize ≤ 0` means the queue is unbounded.  Items are FIFO: `put`
appends at the tail, `get` takes from the head.
Sources: `queue.Queue(maxsize=2)` in `ObstacleAssistant.__init__`
(obstacle_assistant.py line 55) and `queue.Queue()` in
`ObstacleAlert.__init__` (modules/obstacle_alert.py line 25). -/
structure PyQueue (α : Type) where
  maxsize : Int
  items : List α
deriving Repr, DecidableEq

/-- CPython `Queue.full()`: true iff `0 < maxsize` and at least
`maxsize` items are stored. -/
def PyQueue.full {α : Type} (q : PyQueue α) : Bool :=
  decide (0 < q.maxsize) && decide (q.maxsize ≤ (q.items.length : Int))

/-- CPython `Queue.put_nowait(a)`: `none` models a raised
`queue.Full`, otherwise the item is appended. -/
def PyQueue.put_nowait {α : Type} (q : PyQueue α) (a : α) : Option (PyQueue α) :=
  if q.full then none else some { q with items := q.items ++ [a] }

/-- CPython `Queue.get_nowait()`: `none` models a raised
`queue.Empty`, otherwise returns the head item and the rest. -/
def PyQueue.get_nowait {α : Type} (q : PyQueue α) : Option (α × PyQueue α) :=
  match q.items with
  | [] => none
  | x :: xs => some (x, { q with items := xs })

/-- Embedding of the frame-offer step of
`ObstacleAssistant._video_capture_thread` (obstacle_assistant.py lines
247-257).  The source reads:

```
if not self.frame_queue.full():
    try:
        self.frame_queue.put(frame.copy(), block=False)
    except queue.Full:
        try:
            self.frame_queue.get_nowait()
            self.frame_queue.put(frame.copy(), block=False)
        except queue.Empty:
            pass
```

The whole `try`/`except` sits inside `if not ... full()`, so the
`except queue.Full` replace-with-newest branch is unreachable for a
single sequential producer: when the queue is full nothing at all is
executed and the new frame is lost.  The unreachable branch is kept in
the embedding to mirror the source. -/
def video_capture_offer (q : PyQueue Nat) (frame : Nat) : PyQueue Nat :=
  if q.full = false then
    match q.put_nowait frame with
    | some q1 => q1
    | none =>
      match q.get_nowait with
      | some (_, q2) => (q2.put_nowait frame).getD q2
      | none => q
  else
    q

/-- Embedding of `calculate_proximity` (utils/helpers.py lines 47-66).
The `frame_width`/`frame_height` parameters are accepted and ignored
exactly as in the source; the cutoffs `0.08` and `0.04` are hard-coded
literals, and none of the configured `OBSTACLE_CLOSE_DISTANCE` /
`OBSTACLE_MEDIUM_DISTANCE` / `OBSTACLE_FAR_DISTANCE` settings is
referenced. -/
def calculate_proximity (relative_size : ℚ) (frame_width frame_height : ℤ) : String :=
  if relative_size > 8/100 then "close"
  else if relative_size > 4/100 then "medium"
  else "far"

/-- C4: the proximity classifier returns "close" exactly when
`relative_size > 0.08`, "medium" exactly when
`0.04 < relative_size ≤ 0.08` and "far" otherwise, for every frame
size; in particular `0.08` is classified "medium" and `0.04` "far".
Since the characterisation holds for all inputs and mentions no
configured distance setting, the classification is independent of the
configured close/medium/far distances. -/
theorem calculate_proximity_characterisation
    (rs : ℚ) (w h : ℤ) :
    (calculate_proximity rs w h = "close" ↔ 8/100 < rs) ∧
    (calculate_proximity rs w h = "medium" ↔ 4/100 < rs ∧ rs ≤ 8/100) ∧
    (calculate_proximity rs w h = "far" ↔ rs ≤ 4/100) ∧
    calculate_proximity (8/100) w h = "medium" ∧
    calculate_proximity (4/100) w h = "far" := by
  unfold calculate_proximity
  refine ⟨?_, ?_, ?_, ?_, ?_⟩
  · split_ifs with h1 h2 <;> simp_all <;> linarith
  · split_ifs with h1 h2 <;> simp_all
  · split_ifs with h1 h2 <;> simp_all <;> linarith
  · norm_num
  · norm_num

/-- C1: pushing three frames `1, 2, 3` in quick succession (single
producer, no consumer activity) into the capacity-2 frame queue leaves
the two oldest frames `[1, 2]` in the queue — the third frame is
dropped and no eviction happens, contrary to the documented
keep-only-the-newest intent (`[2, 3]`). -/
theorem frame_queue_keeps_oldest_two :
    (video_capture_offer (video_capture_offer
        (video_capture_offer ⟨2, []⟩ 1) 2) 3).items = [1, 2] ∧
    (video_capture_offer (video_capture_offer
        (video_capture_offer ⟨2, []⟩ 1) 2) 3).items ≠ [2, 3] := by
  constructor
  · rfl
  · decide

/-- Python `int(q)` on a (real-valued) number: truncation toward zero.
All frequencies scaled in the sources are positive, where this agrees
with the floor; exact rationals stand in for the source's IEEE-754
doubles (for the configured default frequencies 900/600/300 Hz the two
agree). -/
def pyInt (q : ℚ) : Int :=
  if 0 ≤ q then ⌊q⌋ else -⌊-q⌋

/-- Configuration constants of the standalone alert system, with the
literal defaults of `config.py` (lines 37-41). -/
structure AlertConfig where
  close_frequency : Int := 900
  medium_frequency : Int := 600
  far_frequency : Int := 300
  duration : ℚ := 1/10
  debounce_time : ℚ := 3/10
deriving Repr, DecidableEq

/-- The default configuration (no environment overrides). -/
def defaultConfig : AlertConfig := {}

/-- An Alert Message dictionary as built by `ObstacleAlert.alert_obstacle`
and `ObstacleAlert.alert_noise` (modules/obstacle_alert.py lines
188-195 and 232-239).  Fields absent from one of the two dictionary
shapes are modelled as `Option`. -/
structure AlertData where
  atype : String
  frequency : Int
  duration : ℚ
  priority : String
  proximity : Option String := none
  obstacle_type : Option String := none
  noise_type : Option String := none
  intensity : Option ℚ := none
deriving Repr, DecidableEq

/-- `try: q.put(m, block=False) except queue.Full: pass` — the
enqueue-or-silently-drop step used by both alerting entry points
(modules/obstacle_alert.py lines 197-201 and 241-244). -/
def put_drop (q : PyQueue AlertData) (m : AlertData) : PyQueue AlertData :=
  match q.put_nowait m with
  | some q1 => q1
  | none => q

/-- Message construction of `ObstacleAlert.alert_obstacle`
(modules/obstacle_alert.py lines 149-195): returns the Alert Message
that the call would enqueue, or `none` when the call returns without
producing one. -/
def alert_obstacle_msg (cfg : AlertConfig) (enabled : Bool)
    (proximity obstacle_type priority : String) (is_center : Bool) :
    Option AlertData :=
  if enabled = false then none
  else if proximity = "far" ∧ is_center = false then none
  else if proximity = "medium" ∧ is_center = false then none
  else
    let fd : Int × ℚ :=
      if proximity = "close" then (cfg.close_frequency, cfg.duration * (3/2))
      else if proximity = "medium" then (cfg.medium_frequency, cfg.duration)
      else (cfg.far_frequency, cfg.duration * (1/2))
    let frequency : Int :=
      if obstacle_type = "person" then pyInt ((fd.1 : ℚ) * (11/10))
      else if obstacle_type ∈ ["car", "bus", "truck", "motorcycle", "bicycle"] then
        pyInt ((fd.1 : ℚ) * (9/10))
      else fd.1
    some { atype := "obstacle", frequency := frequency, duration := fd.2,
           priority := priority, proximity := some proximity,
           obstacle_type := some obstacle_type }

/-- `ObstacleAlert.alert_obstacle` acting on the alert queue: build the
message (if any) and offer it with the drop-on-full policy. -/
def alert_obstacle (cfg : AlertConfig) (enabled : Bool)
    (q : PyQueue AlertData) (proximity obstacle_type priority : String)
    (is_center : Bool) : PyQueue AlertData :=
  match alert_obstacle_msg cfg enabled proximity obstacle_type priority is_center with
  | some m => put_drop q m
  | none => q

/-- Message construction of `ObstacleAlert.alert_noise`
(modules/obstacle_alert.py lines 203-239): the noise Alert Message the
call would enqueue, or `none` when alerts are disabled. -/
def alert_noise_msg (cfg : AlertConfig) (enabled : Bool)
    (noise_type : String) (intensity : ℚ) : Option AlertData :=
  if enabled = false then none
  else
    let fdp : Int × ℚ × String :=
      if noise_type = "siren" then (1200, cfg.duration * 2, "high")
      else if noise_type = "traffic" then (400, cfg.duration, "normal")
      else if noise_type = "voice" then (500, cfg.duration * (8/10), "low")
      else (cfg.medium_frequency, cfg.duration, "normal")
    some { atype := "noise", frequency := fdp.1, duration := fdp.2.1,
           priority := fdp.2.2, noise_type := some noise_type,
           intensity := some intensity }

/-- `ObstacleAlert.alert_noise` acting on the alert queue
(modules/obstacle_alert.py lines 241-244). -/
def alert_noise (cfg : AlertConfig) (enabled : Bool)
    (q : PyQueue AlertData) (noise_type : String) (intensity : ℚ) :
    PyQueue AlertData :=
  match alert_noise_msg cfg enabled noise_type intensity with
  | some m => put_drop q m
  | none => q

/-- Lookup in the `last_alert_time` dictionary. -/
def dict_get (d : List (String × ℚ)) (k : String) : Option ℚ :=
  (d.find? (fun p => p.1 = k)).map Prod.snd

/-- Assignment `d[k] = v` in the `last_alert_time` dictionary. -/
def dict_set (d : List (String × ℚ)) (k : String) (v : ℚ) :
    List (String × ℚ) :=
  (k, v) :: d.filter (fun p => ¬ p.1 = k)

/-- The debounce key `f"{alert_type}_{frequency}"`
(modules/obstacle_alert.py line 90). -/
def alert_key (m : AlertData) : String :=
  m.atype ++ "_" ++ toString m.frequency

/-- `ObstacleAlert._play_alert` (modules/obstacle_alert.py lines
79-105), run by the playback worker on each message it dequeues.
Returns the updated `last_alert_time` dictionary and whether a tone was
actually played (`false` models the early returns). -/
def play_alert (cfg : AlertConfig) (enabled : Bool)
    (last : List (String × ℚ)) (m : AlertData) (now : ℚ) :
    List (String × ℚ) × Bool :=
  if enabled = false then (last, false)
  else
    let key := alert_key m
    match dict_get last key with
    | some t =>
        if now - t < cfg.debounce_time then (last, false)
        else (dict_set last key now, true)
    | none => (dict_set last key now, true)

/-- The alert queue created by `ObstacleAlert.__init__`:
`queue.Queue()` with no `maxsize` argument, i.e. maxsize 0 =
unbounded. -/
def obstacle_alert_queue_init : PyQueue AlertData := ⟨0, []⟩

/-- An unbounded queue is never full. -/
lemma full_false_of_unbounded {α : Type} (q : PyQueue α) (hq : q.maxsize ≤ 0) :
    q.full = false := by
  have h1 : decide (0 < q.maxsize) = false := by
    simp only [decide_eq_false_iff_not]
    omega
  simp [PyQueue.full, h1]

/-- On an unbounded queue, the drop-on-full offer always appends. -/
lemma put_drop_unbounded (q : PyQueue AlertData) (m : AlertData)
    (hq : q.maxsize ≤ 0) :
    put_drop q m = ⟨q.maxsize, q.items ++ [m]⟩ := by
  simp [put_drop, PyQueue.put_nowait, full_false_of_unbounded q hq]

/-- Reading back a key just written into the debounce dictionary. -/
lemma dict_get_set (d : List (String × ℚ)) (k : String) (v : ℚ) :
    dict_get (dict_set d k v) k = some v := by
  simp [dict_get, dict_set, List.find?]

/-- C3: with alerts enabled and proximity one of close/medium/far, a
far or medium object outside the center zone produces no Alert
Message, and otherwise the message is exactly determined: close →
configured close frequency and 1.5× base duration; medium-in-center →
configured medium frequency and 1.0×; far-in-center → configured far
frequency and 0.5×; with the frequency scaled ×1.1 (truncated to int)
for "person", ×0.9 for car/bus/truck/motorcycle/bicycle, and unscaled
otherwise. -/
theorem alert_obstacle_msg_characterisation
    (cfg : AlertConfig) (proximity obstacle_type priority : String)
    (is_center : Bool)
    (hprox : proximity = "close" ∨ proximity = "medium" ∨ proximity = "far") :
    let scale : Int → Int := fun f =>
      if obstacle_type = "person" then pyInt ((f : ℚ) * (11/10))
      else if obstacle_type ∈ ["car", "bus", "truck", "motorcycle", "bicycle"]
        then pyInt ((f : ℚ) * (9/10))
      else f
    ((proximity = "far" ∨ proximity = "medium") → is_center = false →
      alert_obstacle_msg cfg true proximity obstacle_type priority is_center
        = none) ∧
    (proximity = "close" →
      alert_obstacle_msg cfg true proximity obstacle_type priority is_center
        = some { atype := "obstacle", frequency := scale cfg.close_frequency,
                 duration := cfg.duration * (3/2), priority := priority,
                 proximity := some proximity,
                 obstacle_type := some obstacle_type }) ∧
    (proximity = "medium" → is_center = true →
      alert_obstacle_msg cfg true proximity obstacle_type priority is_center
        = some { atype := "obstacle", frequency := scale cfg.medium_frequency,
                 duration := cfg.duration, priority := priority,
                 proximity := some proximity,
                 obstacle_type := some obstacle_type }) ∧
    (proximity = "far" → is_center = true →
      alert_obstacle_msg cfg true proximity obstacle_type priority is_center
        = some { atype := "obstacle", frequency := scale cfg.far_frequency,
                 duration := cfg.duration * (1/2), priority := priority,
                 proximity := some proximity,
                 obstacle_type := some obstacle_type }) := by
  intro scale
  unfold alert_obstacle_msg
  rcases hprox with h | h | h <;> subst h <;>
    cases is_center <;> simp [scale]

/-- Concrete instantiation of the C3 characterisation: a far, person
obstacle in the center zone with the default configuration yields a
300 Hz × 1.1 = 330 Hz tone of duration 0.05 s. -/
theorem alert_obstacle_msg_characterisation_witness :
    alert_obstacle_msg defaultConfig true "far" "person" "normal" true
      = some { atype := "obstacle", frequency := 330, duration := 1/20,
               priority := "normal", proximity := some "far",
               obstacle_type := some "person" } := by
  have h := alert_obstacle_msg_characterisation defaultConfig "far" "person"
    "normal" true (Or.inr (Or.inr rfl))
  have h4 := h.2.2.2 rfl rfl
  rw [h4]
  simp only [defaultConfig, pyInt]
  norm_num

/-- With alerts enabled, `alert_noise` always builds a message. -/
lemma alert_noise_msg_isSome (cfg : AlertConfig) (nt : String) (i : ℚ) :
    ∃ m, alert_noise_msg cfg true nt i = some m := by
  unfold alert_noise_msg
  exact ⟨_, rfl⟩

/-- `alert_noise` on an unbounded queue appends one message and keeps
the queue unbounded. -/
lemma alert_noise_unbounded (cfg : AlertConfig) (q : PyQueue AlertData)
    (hq : q.maxsize ≤ 0) (nt : String) (i : ℚ) :
    (alert_noise cfg true q nt i).maxsize = q.maxsize ∧
    (alert_noise cfg true q nt i).items.length = q.items.length + 1 := by
  obtain ⟨m, hm⟩ := alert_noise_msg_isSome cfg nt i
  simp [alert_noise, hm, put_drop_unbounded q m hq]

/-- Length of the alert queue after `n` successive noise alerts on an
unbounded queue: it grows by exactly `n`. -/
lemma alert_noise_iterate_length (q : PyQueue AlertData) (hq : q.maxsize ≤ 0) :
    ∀ n : ℕ,
      ((fun qq => alert_noise defaultConfig true qq "siren" 1) ^[n] q).maxsize
          = q.maxsize ∧
      ((fun qq => alert_noise defaultConfig true qq "siren" 1) ^[n] q).items.length
          = q.items.length + n := by
  intro n
  induction n with
  | zero => simp
  | succ k ih =>
    rw [Function.iterate_succ_apply']
    have hq' : ((fun qq => alert_noise defaultConfig true qq "siren" 1) ^[k] q).maxsize ≤ 0 := by
      rw [ih.1]; exact hq
    have h := alert_noise_unbounded defaultConfig _ hq' "siren" 1
    refine ⟨by rw [h.1, ih.1], ?_⟩
    rw [h.2, ih.2]
    omega

/-- C2 (counterexample): with alerts enabled, two identical close
"person" obstacle alerts issued back-to-back (well inside the 0.3 s
debounce window) BOTH reach the playback queue: the producer
`alert_obstacle` enqueues unconditionally and performs no debounce
check, so the second alert is not dropped before reaching the queue. -/
theorem second_alert_reaches_queue :
    (alert_obstacle defaultConfig true
        (alert_obstacle defaultConfig true obstacle_alert_queue_init
          "close" "unknown" "high" true)
        "close" "unknown" "high" true).items.length = 2 ∧
    (alert_obstacle defaultConfig true
        (alert_obstacle defaultConfig true obstacle_alert_queue_init
          "close" "unknown" "high" true)
        "close" "unknown" "high" true).items.map alert_key
      = ["obstacle_900", "obstacle_900"] := by
  constructor <;> rfl

/-- The Alert Message produced by a close, unrecognised-type obstacle
with the default configuration (frequency 900 Hz unscaled). -/
def mkCloseMsg : AlertData :=
  { atype := "obstacle", frequency := 900, duration := 3/20,
    priority := "high", proximity := some "close",
    obstacle_type := some "unknown" }

/-- C2 (amended): both alerts reach the playback queue; the debounce is
enforced by the playback worker `_play_alert` when it processes each
dequeued message: assuming the (type, frequency) key has not fired
before, the first message plays (and records its firing time `t1`), and
a second message with the same key processed at time `t2` plays exactly
when at least the debounce interval has elapsed (`t2 - t1 ≥
debounce_time`); otherwise it is dropped at playback time. -/
theorem alert_debounce_semantics (cfg : AlertConfig) (m : AlertData)
    (t1 : ℚ) (last : List (String × ℚ))
    (h0 : dict_get last (alert_key m) = none) :
    (∀ q : PyQueue AlertData, q.maxsize ≤ 0 →
      (put_drop (put_drop q m) m).items = q.items ++ [m, m]) ∧
    (play_alert cfg true last m t1).2 = true ∧
    (∀ t2 : ℚ,
      (play_alert cfg true (play_alert cfg true last m t1).1 m t2).2 = true
        ↔ cfg.debounce_time ≤ t2 - t1) := by
  refine ⟨?_, ?_, ?_⟩
  · intro q hq
    rw [put_drop_unbounded q m hq,
      put_drop_unbounded ⟨q.maxsize, q.items ++ [m]⟩ m hq]
    simp
  · simp [play_alert, h0]
  · intro t2
    have hfirst : play_alert cfg true last m t1
        = (dict_set last (alert_key m) t1, true) := by
      simp [play_alert, h0]
    rw [hfirst]
    simp only [play_alert, dict_get_set, Bool.true_eq_false, if_false]
    split_ifs with hlt
    · constructor
      · intro h
        exact absurd h (by simp)
      · intro h
        exact absurd hlt (not_lt.mpr h)
    · constructor
      · intro _
        exact not_lt.mp hlt
      · intro _
        rfl

/-- Concrete instantiation of the C2 debounce semantics: starting from
an empty debounce dictionary, a 900 Hz close-obstacle tone fired at
t = 0 plays, and an identical one processed at t = 0.4 s (≥ the 0.3 s
default debounce) also plays. -/
theorem alert_debounce_semantics_witness :
    (play_alert defaultConfig true [] mkCloseMsg 0).2 = true ∧
    (play_alert defaultConfig true
        (play_alert defaultConfig true [] mkCloseMsg 0).1 mkCloseMsg (4/10)).2
      = true := by
  have h := alert_debounce_semantics defaultConfig mkCloseMsg 0 [] rfl
  exact ⟨h.2.1, (h.2.2 (4/10)).mpr (by norm_num [defaultConfig])⟩

/-- C10 (counterexample): there is no fixed finite capacity bounding
the number of queued, unconsumed Alert Messages: the alert queue is
created unbounded (`queue.Queue()`, maxsize 0), so `n` noise alerts
with no consumption leave `n` messages queued, exceeding any candidate
capacity. -/
theorem alert_queue_capacity_claim_false :
    ¬ ∃ cap : ℕ, ∀ n : ℕ,
      ((fun qq => alert_noise defaultConfig true qq "siren" 1) ^[n]
        obstacle_alert_queue_init).items.length ≤ cap := by
  rintro ⟨cap, hcap⟩
  have h := (alert_noise_iterate_length obstacle_alert_queue_init
    (by simp [obstacle_alert_queue_init]) (cap + 1)).2
  have h2 := hcap (cap + 1)
  have h3 : obstacle_alert_queue_init.items.length = 0 := rfl
  omega

/-- C10 (amended): the pending-alert queue is created without a size
bound, so it can never be full; `alert_obstacle` and `alert_noise` use
a non-blocking put whose silent-drop handler therefore never triggers:
the producer never blocks, every generated Alert Message is appended,
and the number of queued, unconsumed messages grows without bound (one
per generated message) rather than being capped by any capacity. -/
theorem alert_queue_unbounded_behaviour (q : PyQueue AlertData)
    (hq : q.maxsize ≤ 0) :
    q.full = false ∧
    (∀ nt i, (alert_noise defaultConfig true q nt i).items.length
        = q.items.length + 1) ∧
    (∀ prox ot pr c m,
      alert_obstacle_msg defaultConfig true prox ot pr c = some m →
      (alert_obstacle defaultConfig true q prox ot pr c).items
        = q.items ++ [m]) ∧
    (∀ n : ℕ,
      ((fun qq => alert_noise defaultConfig true qq "siren" 1) ^[n] q).items.length
        = q.items.length + n) := by
  refine ⟨full_false_of_unbounded q hq, ?_, ?_, ?_⟩
  · intro nt i
    exact (alert_noise_unbounded defaultConfig q hq nt i).2
  · intro prox ot pr c m hm
    simp [alert_obstacle, hm, put_drop_unbounded q m hq]
  · intro n
    exact (alert_noise_iterate_length q hq n).2

/-- Concrete instantiation of the unbounded-queue behaviour at the
actual initial alert queue: it is not full, and one noise alert leaves
one queued message. -/
theorem alert_queue_unbounded_behaviour_witness :
    obstacle_alert_queue_init.full = false ∧
    (alert_noise defaultConfig true obstacle_alert_queue_init "siren" 1).items.length
      = 1 := by
  have h := alert_queue_unbounded_behaviour obstacle_alert_queue_init
    (by simp [obstacle_alert_queue_init])
  exact ⟨h.1, by simpa [obstacle_alert_queue_init] using h.2.1 "siren" 1⟩

/-- Session state of the browser variant relevant to the detection
cadence (`st.session_state.last_detection_time`,
`st.session_state.last_description` in app.py). -/
structure CycleState where
  last_detection_time : ℚ
  last_description : String
deriving Repr, DecidableEq

/-- Embedding of the detection-cadence logic of
`process_video_and_detection` (app.py lines 308-376).  The per-cycle
environment is abstracted to `now` (the value of `time.time()`) and
`scene`: `none` when neither detections nor a noise event exist in this
cycle, `some d` when they exist and the Language Description Agent
returns description `d`.  Returns the updated session state and whether
a detection pass ran in this cycle.  Mirrors the source exactly: the
timestamp is updated only inside `if description !=
st.session_state.last_description:` or in the no-detections `else`
branch. -/
def process_cycle (st : CycleState) (now : ℚ) (scene : Option String) :
    CycleState × Bool :=
  if 3 ≤ now - st.last_detection_time then
    match scene with
    | some d =>
        if d ≠ st.last_description then
          ({ last_detection_time := now, last_description := d }, true)
        else
          (st, true)
    | none =>
        ({ last_detection_time := now,
           last_description := st.last_description }, true)
  else
    (st, false)

/-- C9: a concrete four-cycle trace violating the claimed 3.0-second
minimum spacing between detection passes.  Starting from a fresh
session and a static scene described as "d": the cycle at t = 10 runs a
pass and records the description; the cycle at t = 10.1 correctly skips;
the cycle at t = 13.1 runs a pass but — because the description is
unchanged — does NOT advance the timestamp; hence the very next cycle at
t = 13.2 runs another pass only 0.1 s after the previous one. -/
theorem detection_pass_interval_violated :
    (process_cycle ⟨0, ""⟩ 10 (some "d")).2 = true ∧
    (process_cycle (process_cycle ⟨0, ""⟩ 10 (some "d")).1
        (101/10) (some "d")).2 = false ∧
    (process_cycle (process_cycle ⟨0, ""⟩ 10 (some "d")).1
        (131/10) (some "d")).2 = true ∧
    (process_cycle (process_cycle ⟨0, ""⟩ 10 (some "d")).1
        (131/10) (some "d")).1.last_detection_time = 10 ∧
    (process_cycle (process_cycle (process_cycle ⟨0, ""⟩ 10 (some "d")).1
        (131/10) (some "d")).1 (132/10) (some "d")).2 = true ∧
    (132/10 : ℚ) - 131/10 < 3 := by
  have hs : (("d" : String) = "") = False := eq_false (by decide)
  have hd : (("d" : String) = "d") = True := eq_true rfl
  refine ⟨?_, ?_, ?_, ?_, ?_, ?_⟩ <;> norm_num [process_cycle, hs, hd]

/-- NumPy `int16` wrap-around: arithmetic on an `int16` array stays in
`int16` and wraps modulo 2^16 into [-32768, 32768). -/
def int16_wrap (x : Int) : Int :=
  (x + 32768) % 65536 - 32768

/-- The element-wise square `audio_data**2` computed by
`AudioDetector.detect_noise` (src/modules/audio_detector.py line 76):
`audio_data` has dtype `int16`, so the square is computed in `int16`
and silently wraps. -/
def np_square_int16 (s : Int) : Int :=
  int16_wrap (s * s)

/-- `np.mean(audio_data**2)` as computed by the source: the mean (in
float64, here exact ℚ) of the int16-wrapped squares. -/
def mean_sq (chunk : List Int) : ℚ :=
  ((chunk.map np_square_int16).sum : ℚ) / (chunk.length : ℚ)

/-- `AudioDetector.detect_noise` (src/modules/audio_detector.py lines
58-105) on one already-read chunk of 16-bit samples.  The source
computes `normalized_rms = sqrt(mean_sq) / 32768` in floating point and
compares it against the threshold and the 0.7 / 0.5 / 0.3 level cutoffs;
since all cutoffs are ≥ 0, those comparisons are encoded here on the
squares (for a negative mean `np.sqrt` yields NaN and every `>`
comparison is false, i.e. no event).  The returned event carries the
level string and the square of the reported intensity. -/
def detect_noise (threshold : ℚ) (chunk : List Int) :
    Option (String × ℚ) :=
  let m := mean_sq chunk
  if 0 ≤ m ∧ threshold^2 * 32768^2 < m then
    let level :=
      if (7/10)^2 * 32768^2 < m then "muy alto"
      else if (5/10)^2 * 32768^2 < m then "alto"
      else if (3/10)^2 * 32768^2 < m then "moderado"
      else "bajo"
    some (level, m / 32768^2)
  else
    none

/-- The intensity value the claim (and the code's own comments
`Calcular nivel de ruido (RMS)` / `Normalizar a escala 0-1`) specify:
the square of the RMS of the chunk's samples normalized to [-1, 1],
i.e. the mean of `(sample/32768)^2` — computed without the int16
wrap-around. -/
def claimed_intensity_sq (chunk : List Int) : ℚ :=
  (((chunk.map (fun s => s * s)).sum : Int) : ℚ) / (chunk.length : ℚ) / 32768^2

/-- C5: on the chunk consisting of a single full-scale sample 32767 the
code reports NO noise event at the default threshold 0.2, because the
int16 square wraps (32767² ≡ 1 mod 2^16), giving a reported intensity
of 1/32768 ≈ 0.00003; per the claim the normalized RMS is
32767/32768 ≈ 0.99997, which exceeds the 0.2 threshold and even the
0.7 "muy alto" cutoff, so an event should have been emitted. -/
theorem detect_noise_int16_overflow :
    detect_noise (2/10) [32767] = none ∧
    (2/10)^2 < claimed_intensity_sq [32767] ∧
    (7/10)^2 < claimed_intensity_sq [32767] := by
  refine ⟨?_, ?_, ?_⟩ <;>
    norm_num [detect_noise, mean_sq, np_square_int16, int16_wrap,
      claimed_intensity_sq]

/-- One row of the `cache_descripciones` table (columns relevant to the
cache-upsert claims; `uso_count` has SQL default 1). -/
structure CacheRow where
  descripcion : String
  uso_count : ℕ
deriving Repr, DecidableEq

/-- Lookup by the unique `hash_objetos` key. -/
def table_get (t : List (String × CacheRow)) (h : String) :
    Option CacheRow :=
  (t.find? (fun p => p.1 = h)).map Prod.snd

/-- In-place SQL/managed-backend `UPDATE ... WHERE hash_objetos = h`. -/
def table_update (t : List (String × CacheRow)) (h : String)
    (r : CacheRow) : List (String × CacheRow) :=
  t.map (fun p => if p.1 = h then (h, r) else p)

/-- `DatabaseManager._cache_description_postgres`
(src/modules/database_manager.py lines 577-604): the single
`INSERT ... ON CONFLICT (hash_objetos) DO UPDATE SET descripcion =
EXCLUDED.descripcion, uso_count = uso_count + 1` statement, under the
claim's no-concurrent-writers assumption (the statement's atomicity
only matters under concurrency).  A fresh row gets the column default
`uso_count = 1`. -/
def cache_description_postgres (t : List (String × CacheRow))
    (h d : String) : List (String × CacheRow) :=
  match table_get t h with
  | some r => table_update t h { descripcion := d, uso_count := r.uso_count + 1 }
  | none => t ++ [(h, { descripcion := d, uso_count := 1 })]

/-- `DatabaseManager._cache_description_supabase`
(src/modules/database_manager.py lines 549-575): read-then-write —
select `uso_count` by hash; if a row exists, update `descripcion` and
`uso_count := existing + 1`; otherwise insert with `uso_count = 1`. -/
def cache_description_supabase (t : List (String × CacheRow))
    (h d : String) : List (String × CacheRow) :=
  match table_get t h with
  | some r => table_update t h { descripcion := d, uso_count := r.uso_count + 1 }
  | none => t ++ [(h, { descripcion := d, uso_count := 1 })]

/-- Appending a fresh key and then looking it up. -/
lemma table_get_append_fresh (t : List (String × CacheRow)) (h : String)
    (r : CacheRow) (h0 : table_get t h = none) :
    table_get (t ++ [(h, r)]) h = some r := by
  simp only [table_get, Option.map_eq_none'] at h0
  simp [table_get, List.find?_append, h0, List.find?]

/-- Updating a key present only in the appended row. -/
lemma table_update_append_fresh (t : List (String × CacheRow)) (h : String)
    (r r' : CacheRow) (h0 : table_get t h = none) :
    table_update (t ++ [(h, r)]) h r' = t ++ [(h, r')] := by
  have hmem : ∀ p ∈ t, ¬ p.1 = h := by
    simp only [table_get, Option.map_eq_none', List.find?_eq_none,
      decide_eq_true_eq] at h0
    exact h0
  simp only [table_update, List.map_append]
  congr 1
  · have hid : ∀ p ∈ t,
        (fun p : String × CacheRow => if p.1 = h then (h, r') else p) p
          = id p := by
      intro p hp
      simp [hmem p hp]
    rw [List.map_congr_left hid, List.map_id]
  · simp

/-- C6: starting from a table with no row for hash `h`, caching the
same description `d` under `h` twice ends with that row holding the
latest text `d` and `uso_count = 2`, identically via the
direct-backend (atomic upsert) path and via the managed-backend
(read-then-write) path — in the absence of concurrent writers the two
backends produce exactly the same table. -/
theorem cache_upsert_equivalence (t : List (String × CacheRow))
    (h d : String) (h0 : table_get t h = none) :
    table_get (cache_description_postgres
        (cache_description_postgres t h d) h d) h
      = some { descripcion := d, uso_count := 2 } ∧
    cache_description_postgres (cache_description_postgres t h d) h d
      = cache_description_supabase (cache_description_supabase t h d) h d := by
  have hfresh := table_get_append_fresh t h
    { descripcion := d, uso_count := 1 } h0
  have hupd := table_update_append_fresh t h
    { descripcion := d, uso_count := 1 }
    { descripcion := d, uso_count := 2 } h0
  constructor
  · simp only [cache_description_postgres, h0, hfresh, hupd]
    exact table_get_append_fresh t h { descripcion := d, uso_count := 2 } h0
  · simp only [cache_description_postgres, cache_description_supabase,
      h0, hfresh, hupd]

/-- Concrete instantiation of the C6 equivalence on an empty table. -/
theorem cache_upsert_equivalence_witness :
    table_get (cache_description_postgres
        (cache_description_postgres [] "abc123" "una silla") "abc123"
        "una silla") "abc123"
      = some { descripcion := "una silla", uso_count := 2 } ∧
    cache_description_postgres (cache_description_postgres [] "abc123"
        "una silla") "abc123" "una silla"
      = cache_description_supabase (cache_description_supabase [] "abc123"
        "una silla") "abc123" "una silla" := by
  exact cache_upsert_equivalence [] "abc123" "una silla" rfl

/-- A detection as consumed by
`LanguageAgent._create_hash_from_detections`
(Streamlit-Ollama/agents/language_agent.py lines 52-76): only the name
and the bbox center coordinates are read (`det.get(...)` defaults are
folded into total fields). -/
structure Det where
  name : String
  x_center : ℚ
  y_center : ℚ
deriving Repr, DecidableEq

/-- Python 3 `round(q)` on the exact value: round half to even
(banker's rounding). -/
def pyRound (q : ℚ) : Int :=
  let f := ⌊q⌋
  let r := q - (f : ℚ)
  if r < 1/2 then f
  else if 1/2 < r then f + 1
  else if f % 2 = 0 then f else f + 1

/-- A normalized detection tuple
`(name, round(x_center/100), round(y_center/100))` as built by the
cache-key function. -/
structure NormDet where
  name : String
  x_center : Int
  y_center : Int
deriving Repr, DecidableEq

/-- The normalisation step of `_create_hash_from_detections`. -/
def normalize_detection (d : Det) : NormDet :=
  { name := d.name,
    x_center := pyRound (d.x_center / 100),
    y_center := pyRound (d.y_center / 100) }

/-- The Python sort key `(x['name'], x['x_center'], x['y_center'])` as
a lexicographically ordered value. -/
def normKey (a : NormDet) : String ×ₗ (Int ×ₗ Int) :=
  toLex (a.name, toLex (a.x_center, a.y_center))

/-- The sorting order used by `normalized.sort(key=...)`: lexicographic
comparison of (name, x_center, y_center), matching Python tuple
comparison (string comparison is by code point in both languages). -/
def normLe (a b : NormDet) : Prop :=
  normKey a ≤ normKey b

instance : DecidableRel normLe :=
  fun a b => inferInstanceAs (Decidable (normKey a ≤ normKey b))

instance : IsTotal NormDet normLe :=
  ⟨fun a b => le_total (normKey a) (normKey b)⟩

instance : IsTrans NormDet normLe :=
  ⟨fun _ _ _ h1 h2 => le_trans h1 h2⟩

/-- The sort key determines the whole record. -/
lemma normKey_inj {a b : NormDet} (h : normKey a = normKey b) : a = b := by
  cases a
  cases b
  simp only [normKey, toLex_inj, Prod.mk.injEq] at h
  simp [h.1, h.2.1, h.2.2]

instance : IsAntisymm NormDet normLe :=
  ⟨fun _ _ h1 h2 => normKey_inj (le_antisymm h1 h2)⟩

/-- Minimal JSON string escaping (quote and backslash).  `json.dumps`
additionally escapes control and non-ASCII characters; being a
deterministic function of the name, that difference cannot affect
key equality. -/
def json_escape (s : String) : String :=
  String.mk (s.data.foldr
    (fun c acc =>
      if c = '\\' then '\\' :: '\\' :: acc
      else if c = '"' then '\\' :: '"' :: acc
      else c :: acc) [])

/-- `json.dumps` rendering of one normalized detection dict with
`sort_keys=True` (keys already in sorted order: name, x_center,
y_center) and the default `", "`/`": "` separators. -/
def json_of_norm (n : NormDet) : String :=
  "\x7b\"name\": \"" ++ json_escape n.name ++ "\", \"x_center\": "
    ++ toString n.x_center ++ ", \"y_center\": " ++ toString n.y_center
    ++ "\x7d"

/-- `json.dumps` rendering of the sorted normalized list. -/
def json_dumps_norm (l : List NormDet) : String :=
  "[" ++ String.intercalate ", " (l.map json_of_norm) ++ "]"

/-- `LanguageAgent._create_hash_from_detections`
(Streamlit-Ollama/agents/language_agent.py lines 52-76): normalize,
sort by (name, x, y), JSON-serialize with sorted keys, hash.  The MD5
digest is an opaque pure function of the serialized string, passed in
as a parameter.  Python's stable sort is modelled by insertion sort:
since the order is total, transitive and antisymmetric on these
records, every sorting algorithm produces the identical sorted list. -/
def create_hash_from_detections (md5 : String → String)
    (detections : List Det) : String :=
  md5 (json_dumps_norm
    (List.insertionSort normLe (detections.map normalize_detection)))

/-- C7: two detection lists whose normalized (name, quantized-center)
multisets coincide — the same objects with the same names and the same
centers after dividing by 100 and rounding, in any order — produce the
same cache-key hash, for every hash function. -/
theorem cache_key_order_independent (md5 : String → String)
    (l1 l2 : List Det)
    (hperm : (l1.map normalize_detection).Perm (l2.map normalize_detection)) :
    create_hash_from_detections md5 l1 = create_hash_from_detections md5 l2 := by
  unfold create_hash_from_detections
  have hsorted :
      List.insertionSort normLe (l1.map normalize_detection)
        = List.insertionSort normLe (l2.map normalize_detection) :=
    List.eq_of_perm_of_sorted
      ((List.perm_insertionSort normLe _).trans
        (hperm.trans (List.perm_insertionSort normLe _).symm))
      (List.sorted_insertionSort normLe _)
      (List.sorted_insertionSort normLe _)
  rw [hsorted]

/-- Concrete instantiation of the C7 order independence: a person at
(320, 240) and a chair at (100, 50), listed in the two possible
orders, hash identically. -/
theorem cache_key_order_independent_witness :
    create_hash_from_detections id
        [⟨"person", 320, 240⟩, ⟨"chair", 100, 50⟩]
      = create_hash_from_detections id
        [⟨"chair", 100, 50⟩, ⟨"person", 320, 240⟩] := by
  apply cache_key_order_independent
  simp only [List.map]
  exact List.Perm.swap _ _ _

/-- Python `str.split()` (no separator argument): split on runs of
whitespace, ignoring leading/trailing whitespace.  (Lean's
`Char.isWhitespace` covers space/tab/newline/carriage-return; Python
additionally treats a few rarer control/Unicode spaces as whitespace,
which affects none of the claims.) -/
def py_words_aux : List Char → List Char → List (List Char)
  | cur, [] => if cur = [] then [] else [cur.reverse]
  | cur, c :: cs =>
    if c.isWhitespace then
      if cur = [] then py_words_aux [] cs
      else cur.reverse :: py_words_aux [] cs
    else py_words_aux (c :: cur) cs

/-- The word list itself (see the doc comment above
`py_words_aux`). -/
def py_words (l : List Char) : List (List Char) :=
  py_words_aux [] l

/-- Python `' '.join(words)`. -/
def join_words : List (List Char) → List Char
  | [] => []
  | w :: ws =>
    match ws with
    | [] => w
    | _ :: _ => w ++ ' ' :: join_words ws

/-- `' '.join(description.split())` — the whitespace-collapsing first
step of `LanguageAgent._clean_description`
(Streamlit-Ollama/agents/language_agent.py line 249). -/
def collapse (l : List Char) : List Char :=
  join_words (py_words l)

/-- Python `str.rfind`-style backwards search generalised to a
predicate: the greatest index whose character satisfies `p`, or -1. -/
def py_rfind (p : Char → Bool) : List Char → Int
  | [] => -1
  | c :: cs =>
    let r := py_rfind p cs
    if 0 ≤ r then r + 1
    else if p c then 0 else -1

/-- Sentence-ending punctuation: '.', '!' or '?'. -/
def is_punct (c : Char) : Bool :=
  c == '.' || c == '!' || c == '?'

/-- Python `l.rsplit(' ', 1)[0]`: everything before the last single
space, or the whole string if it contains no space. -/
def py_rsplit_head (l : List Char) : List Char :=
  let r := py_rfind (fun c => c == ' ') l
  if 0 ≤ r then l.take r.toNat else l

/-- Python `str.strip()`: drop whitespace from both ends. -/
def py_strip (l : List Char) : List Char :=
  ((l.dropWhile Char.isWhitespace).reverse.dropWhile
    Char.isWhitespace).reverse

/-- Python `s.endswith(('.', '!', '?'))`. -/
def ends_with_punct (l : List Char) : Bool :=
  match l.getLast? with
  | some c => is_punct c
  | none => false

/-- `LanguageAgent._clean_description`
(Streamlit-Ollama/agents/language_agent.py lines 238-273) on the raw
model text as a character list.  `maxLen` is `MAX_DESCRIPTION_LENGTH`
(config default 500).  The source compares
`last_punctuation > MAX_DESCRIPTION_LENGTH * 0.7` in floating point;
`0.7 * 500 = 350.0` is exact, modelled with exact rationals. -/
def clean_desc (maxLen : ℕ) (l : List Char) : List Char :=
  let description := collapse l
  let description1 :=
    if maxLen < description.length then
      let truncated := description.take maxLen
      let last_period := py_rfind (fun c => c == '.') truncated
      let last_exclamation := py_rfind (fun c => c == '!') truncated
      let last_question := py_rfind (fun c => c == '?') truncated
      let last_punctuation := max (max last_period last_exclamation) last_question
      if (maxLen : ℚ) * (7/10) < (last_punctuation : ℚ) then
        description.take (last_punctuation + 1).toNat
      else
        py_rsplit_head truncated ++ ['.']
    else description
  let description2 :=
    if description1 ≠ [] ∧ ends_with_punct description1 = false then
      description1 ++ ['.']
    else description1
  py_strip description2

/-- `LanguageAgent._clean_description` on a `String`. -/
def clean_description (maxLen : ℕ) (s : String) : String :=
  String.mk (clean_desc maxLen s.data)

/-- C8 (counterexample): on the empty raw model text the cleaning step
returns the empty string, which does not end with '.', '!' or '?' — the
final `if description` guard skips the period append for falsy (empty)
text, so the claimed "the final text always ends with '.', '!' or '?'"
fails. -/
theorem clean_description_empty_no_punct :
    clean_description 500 "" = "" ∧
    ends_with_punct (clean_description 500 "").data = false := by
  constructor <;> rfl

/-- Every word produced by `py_words_aux` on a whitespace-free
accumulator is nonempty and free of whitespace characters. -/
lemma py_words_aux_sound (l : List Char) :
    ∀ cur, (∀ ch ∈ cur, ch.isWhitespace = false) →
    ∀ w ∈ py_words_aux cur l, w ≠ [] ∧ ∀ ch ∈ w, ch.isWhitespace = false := by
  induction l with
  | nil =>
    intro cur hcur w hw
    by_cases hc : cur = []
    · simp [py_words_aux, hc] at hw
    · simp only [py_words_aux, if_neg hc, List.mem_singleton] at hw
      subst hw
      refine ⟨by simpa using hc, ?_⟩
      intro ch hch
      exact hcur ch (List.mem_reverse.mp hch)
  | cons c cs ih =>
    intro cur hcur w hw
    by_cases hc : c.isWhitespace
    · by_cases hcur0 : cur = []
      · simp only [py_words_aux, hc, if_true, hcur0, if_pos] at hw
        exact ih [] (by simp) w hw
      · simp only [py_words_aux, hc, if_true, if_neg hcur0] at hw
        rcases List.mem_cons.mp hw with h | h
        · subst h
          refine ⟨by simpa using hcur0, ?_⟩
          intro ch hch
          exact hcur ch (List.mem_reverse.mp hch)
        · exact ih [] (by simp) w h
    · have hcf : c.isWhitespace = false := by simpa using hc
      simp only [py_words_aux, hcf, Bool.false_eq_true, if_false] at hw
      refine ih (c :: cur) ?_ w hw
      intro ch hch
      rcases List.mem_cons.mp hch with h | h
      · subst h
        exact hcf
      · exact hcur ch h

/-- Every word produced by `py_words` is nonempty and free of
whitespace characters. -/
lemma py_words_sound (l : List Char) :
    ∀ w ∈ py_words l, w ≠ [] ∧ ∀ ch ∈ w, ch.isWhitespace = false :=
  py_words_aux_sound l [] (by simp)

/-- Joining a nonempty list of nonempty words is nonempty. -/
lemma join_words_ne_nil (ws : List (List Char)) (h1 : ws ≠ [])
    (h2 : ∀ w ∈ ws, w ≠ []) : join_words ws ≠ [] := by
  cases ws with
  | nil => exact absurd rfl h1
  | cons w rest =>
    cases rest with
    | nil => simpa [join_words] using h2 w (by simp)
    | cons w2 rest2 =>
      simp only [join_words]
      intro hcontra
      have := (List.append_eq_nil.mp hcontra).2
      simp at this

/-- The head of a join is the head of the first word. -/
lemma join_words_head? (w : List Char) (ws : List (List Char))
    (hw : w ≠ []) : (join_words (w :: ws)).head? = w.head? := by
  cases ws with
  | nil => rfl
  | cons w2 rest =>
    simp only [join_words, List.head?_append]
    cases w with
    | nil => exact absurd rfl hw
    | cons a as => rfl

/-- The first character of a collapsed text is not whitespace. -/
lemma collapse_head_not_ws (s : List Char) :
    ∀ ch, (collapse s).head? = some ch → ch.isWhitespace = false := by
  intro ch h
  unfold collapse at h
  rcases hws : py_words s with _ | ⟨w, rest⟩
  · rw [hws] at h
    simp [join_words] at h
  · rw [hws] at h
    have hw := py_words_sound s w (by rw [hws]; simp)
    rw [join_words_head? w rest hw.1] at h
    cases w with
    | nil => exact absurd rfl hw.1
    | cons a as =>
      simp at h
      subst h
      exact hw.2 a (by simp)

/-- The last character of a join comes from one of the words. -/
lemma join_words_getLast?_mem (ws : List (List Char)) (h1 : ws ≠ [])
    (h2 : ∀ w ∈ ws, w ≠ []) :
    ∃ w ∈ ws, (join_words ws).getLast? = w.getLast? := by
  induction ws with
  | nil => exact absurd rfl h1
  | cons w rest ih =>
    cases rest with
    | nil => exact ⟨w, by simp, rfl⟩
    | cons w2 rest2 =>
      obtain ⟨w', hw', heq⟩ := ih (by simp)
        (fun x hx => h2 x (List.mem_cons_of_mem _ hx))
      refine ⟨w', List.mem_cons_of_mem _ hw', ?_⟩
      have hJ : join_words (w2 :: rest2) ≠ [] :=
        join_words_ne_nil _ (by simp)
          (fun x hx => h2 x (List.mem_cons_of_mem _ hx))
      obtain ⟨x, hx⟩ : ∃ x, (join_words (w2 :: rest2)).getLast? = some x := by
        cases hJl : join_words (w2 :: rest2) with
        | nil => exact absurd hJl hJ
        | cons b bs => exact ⟨_, List.getLast?_cons⟩
      have hstep : join_words (w :: w2 :: rest2)
          = w ++ ' ' :: join_words (w2 :: rest2) := rfl
      rw [hstep, List.getLast?_append, List.getLast?_cons, hx,
        Option.getD_some]
      show some x = w'.getLast?
      rw [← heq]
      exact hx.symm

/-- The last character of a collapsed text is not whitespace. -/
lemma collapse_getLast_not_ws (s : List Char) :
    ∀ ch, (collapse s).getLast? = some ch → ch.isWhitespace = false := by
  intro ch h
  unfold collapse at h
  rcases hws : py_words s with _ | ⟨w, rest⟩
  · rw [hws] at h
    simp [join_words] at h
  · obtain ⟨w', hw', heq⟩ := join_words_getLast?_mem (w :: rest) (by simp)
      (fun x hx => (py_words_sound s x (by rw [hws]; exact hx)).1)
    rw [hws, heq] at h
    have hmem : ch ∈ w' := by
      obtain ⟨ys, hys⟩ := List.getLast?_eq_some_iff.mp h
      rw [hys]
      simp
    exact (py_words_sound s w' (by rw [hws]; exact hw')).2 ch hmem

/-- `dropWhile` is the identity when the first element fails the
predicate. -/
lemma dropWhile_eq_self_of_head (p : Char → Bool) (l : List Char)
    (h : ∀ ch, l.head? = some ch → p ch = false) : l.dropWhile p = l := by
  cases l with
  | nil => rfl
  | cons c cs =>
    rw [List.dropWhile_cons, h c rfl]
    simp

/-- `strip()` is the identity on a text whose first and last characters
are not whitespace. -/
lemma py_strip_eq_self (l : List Char)
    (hhead : ∀ ch, l.head? = some ch → ch.isWhitespace = false)
    (hlast : ∀ ch, l.getLast? = some ch → ch.isWhitespace = false) :
    py_strip l = l := by
  unfold py_strip
  rw [dropWhile_eq_self_of_head _ _ hhead]
  rw [dropWhile_eq_self_of_head _ _
    (fun ch hch => hlast ch (by rwa [List.head?_reverse] at hch))]
  exact List.reverse_reverse l

/-- `py_rfind` is at least -1. -/
lemma py_rfind_ge_neg_one (p : Char → Bool) (l : List Char) :
    -1 ≤ py_rfind p l := by
  induction l with
  | nil => simp [py_rfind]
  | cons c cs ih =>
    simp only [py_rfind]
    split_ifs <;> omega

/-- `py_rfind` is below the length. -/
lemma py_rfind_lt_length (p : Char → Bool) (l : List Char) :
    py_rfind p l < (l.length : Int) := by
  induction l with
  | nil => simp [py_rfind]
  | cons c cs ih =>
    simp only [py_rfind, List.length_cons]
    split_ifs <;> push_cast <;> omega

/-- A successful `py_rfind` points at a character satisfying the
predicate. -/
lemma py_rfind_get (p : Char → Bool) (l : List Char)
    (h : 0 ≤ py_rfind p l) :
    ∃ ch, l[(py_rfind p l).toNat]? = some ch ∧ p ch = true := by
  induction l with
  | nil => simp [py_rfind] at h
  | cons c cs ih =>
    simp only [py_rfind] at h ⊢
    split_ifs with h1 h2
    · obtain ⟨ch, hch, hp⟩ := ih h1
      refine ⟨ch, ?_, hp⟩
      have hn : (py_rfind p cs + 1).toNat = (py_rfind p cs).toNat + 1 := by
        omega
      rw [hn, List.getElem?_cons_succ]
      exact hch
    · exact ⟨c, by simp, h2⟩
    · simp only [py_rfind, if_neg h1, if_neg h2] at h
      omega

/-- `getLast?` of a `take (n+1)` prefix is the element at index `n`. -/
lemma take_getLast? (l : List Char) (n : ℕ) (ch : Char)
    (h : l[n]? = some ch) : (l.take (n + 1)).getLast? = some ch := by
  induction l generalizing n with
  | nil => simp at h
  | cons c cs ih =>
    cases n with
    | zero =>
      simp at h
      subst h
      rfl
    | succ m =>
      rw [List.getElem?_cons_succ] at h
      rw [List.take_succ_cons, List.getLast?_cons, ih m h]
      rfl

/-- `head?` of a nonzero-length `take` prefix. -/
lemma head?_take_pos (l : List Char) (n : ℕ) (hn : n ≠ 0) :
    (l.take n).head? = l.head? := by
  rw [List.head?_take, if_neg hn]

/-- The maximum of the three separate backwards searches for '.', '!'
and '?' performed by the source equals one combined backwards search
for any sentence-ending punctuation. -/
lemma py_rfind_max3 (l : List Char) :
    max (max (py_rfind (fun c => c == '.') l)
          (py_rfind (fun c => c == '!') l))
        (py_rfind (fun c => c == '?') l)
      = py_rfind is_punct l := by
  induction l with
  | nil => rfl
  | cons c cs ih =>
    simp only [py_rfind, is_punct, ← ih]
    rcases Bool.eq_false_or_eq_true (c == '.') with hd | hd <;>
    rcases Bool.eq_false_or_eq_true (c == '!') with he | he <;>
    rcases Bool.eq_false_or_eq_true (c == '?') with hq | hq <;>
      simp only [hd, he, hq, Bool.false_or, Bool.or_false, Bool.true_or,
        Bool.or_true, Bool.false_eq_true, Bool.true_eq_false,
        eq_self_iff_true, if_true, if_false] <;>
      split_ifs <;> omega

/-- Sentence-ending punctuation is not whitespace. -/
lemma is_punct_not_ws (c : Char) (h : is_punct c = true) :
    c.isWhitespace = false := by
  simp only [is_punct, Bool.or_eq_true, beq_iff_eq] at h
  rcases h with (h | h) | h <;> subst h <;> rfl

/-- A text ending in an appended period ends with punctuation. -/
lemma ends_with_punct_concat_period (l : List Char) :
    ends_with_punct (l ++ ['.']) = true := by
  simp [ends_with_punct, List.getLast?_concat, is_punct]

/-- The head of `rsplit(' ', 1)[0]` is either absent or the head of
the original text. -/
lemma py_rsplit_head_head? (l : List Char) :
    (py_rsplit_head l).head? = none ∨ (py_rsplit_head l).head? = l.head? := by
  simp only [py_rsplit_head]
  split_ifs with h
  · rcases Nat.eq_zero_or_pos (py_rfind (fun c => c == ' ') l).toNat with h0 | h0
    · left
      rw [h0]
      rfl
    · right
      exact head?_take_pos l _ (by omega)
  · right
    rfl

/-- Cleaning a text whose collapsed form fits in the limit: the
collapsed text, with a period appended when it is nonempty and does not
already end in sentence punctuation. -/
lemma clean_desc_short (maxLen : ℕ) (s : List Char)
    (hle : (collapse s).length ≤ maxLen) :
    clean_desc maxLen s =
      if collapse s = [] then []
      else if ends_with_punct (collapse s) = true then collapse s
      else collapse s ++ ['.'] := by
  simp only [clean_desc]
  rw [if_neg (by omega : ¬ maxLen < (collapse s).length)]
  by_cases hnil : collapse s = []
  · rw [hnil]
    simp [py_strip]
  · by_cases hew : ends_with_punct (collapse s) = true
    · have hcond : ¬(collapse s ≠ [] ∧ ends_with_punct (collapse s) = false) := by
        rintro ⟨_, h2⟩
        rw [hew] at h2
        exact Bool.noConfusion h2
      rw [if_neg hcond, if_neg hnil, if_pos hew]
      exact py_strip_eq_self _ (collapse_head_not_ws s) (collapse_getLast_not_ws s)
    · have hewf : ends_with_punct (collapse s) = false := by
        revert hew
        cases ends_with_punct (collapse s) <;> simp
      rw [if_pos ⟨hnil, hewf⟩, if_neg hnil, if_neg hew]
      apply py_strip_eq_self
      · intro ch hch
        rw [List.head?_append] at hch
        cases hh : (collapse s).head? with
        | none =>
          rw [List.head?_eq_none_iff] at hh
          exact absurd hh hnil
        | some a =>
          rw [hh] at hch
          have ha : a = ch := by simpa using hch
          subst ha
          exact collapse_head_not_ws s a hh
      · intro ch hch
        rw [List.getLast?_concat] at hch
        have hc : ch = '.' := by simpa using hch.symm
        subst hc
        rfl

/-- Cleaning an over-long text when the last sentence punctuation in
the first `maxLen` characters sits past 70% of the limit: cut right
after that punctuation mark; the result ends with punctuation. -/
lemma clean_desc_punct_cut (maxLen : ℕ) (s : List Char)
    (hgt : maxLen < (collapse s).length)
    (hcond : (maxLen : ℚ) * (7/10)
      < (py_rfind is_punct ((collapse s).take maxLen) : ℚ)) :
    clean_desc maxLen s
        = (collapse s).take
            (py_rfind is_punct ((collapse s).take maxLen) + 1).toNat ∧
    ends_with_punct (clean_desc maxLen s) = true := by
  have hmax := py_rfind_max3 ((collapse s).take maxLen)
  have hlp0 : 0 ≤ py_rfind is_punct ((collapse s).take maxLen) := by
    by_contra hneg
    push_neg at hneg
    have h1 : ((py_rfind is_punct ((collapse s).take maxLen) : ℤ) : ℚ) < 0 := by
      exact_mod_cast hneg
    have h2 : (0:ℚ) ≤ (maxLen : ℚ) * (7/10) := by positivity
    linarith
  have hlt : py_rfind is_punct ((collapse s).take maxLen) < (maxLen : ℤ) := by
    have hb := py_rfind_lt_length is_punct ((collapse s).take maxLen)
    have hlen : ((collapse s).take maxLen).length = maxLen := by
      simp only [List.length_take]
      omega
    rw [hlen] at hb
    exact hb
  obtain ⟨ch, hch, hpch⟩ := py_rfind_get is_punct _ hlp0
  have hchc : (collapse s)[(py_rfind is_punct
      ((collapse s).take maxLen)).toNat]? = some ch := by
    rw [List.getElem?_take] at hch
    rwa [if_pos (by omega)] at hch
  have htoNat : (py_rfind is_punct ((collapse s).take maxLen) + 1).toNat
      = (py_rfind is_punct ((collapse s).take maxLen)).toNat + 1 := by
    omega
  have hdlast : ((collapse s).take (py_rfind is_punct
      ((collapse s).take maxLen) + 1).toNat).getLast? = some ch := by
    rw [htoNat]
    exact take_getLast? _ _ _ hchc
  have hdends : ends_with_punct ((collapse s).take (py_rfind is_punct
      ((collapse s).take maxLen) + 1).toNat) = true := by
    simp only [ends_with_punct, hdlast]
    exact hpch
  have hmain : clean_desc maxLen s
      = py_strip ((collapse s).take (py_rfind is_punct
          ((collapse s).take maxLen) + 1).toNat) := by
    simp only [clean_desc]
    rw [if_pos hgt, hmax, if_pos hcond]
    rw [if_neg (by
      rintro ⟨_, h2⟩
      rw [hdends] at h2
      exact Bool.noConfusion h2)]
  have hstrip : py_strip ((collapse s).take (py_rfind is_punct
      ((collapse s).take maxLen) + 1).toNat)
      = (collapse s).take (py_rfind is_punct
          ((collapse s).take maxLen) + 1).toNat := by
    apply py_strip_eq_self
    · intro ch' hch'
      rw [head?_take_pos _ _ (by omega)] at hch'
      exact collapse_head_not_ws s ch' hch'
    · intro ch' hch'
      rw [hdlast] at hch'
      have hc : ch = ch' := by simpa using hch'
      subst hc
      exact is_punct_not_ws ch hpch
  refine ⟨by rw [hmain, hstrip], ?_⟩
  rw [hmain, hstrip]
  exact hdends

/-- Cleaning an over-long text when no sentence punctuation sits past
70% of the limit: cut at the last word boundary within the limit and
append a period. -/
lemma clean_desc_word_cut (maxLen : ℕ) (s : List Char)
    (hgt : maxLen < (collapse s).length)
    (hcond : (py_rfind is_punct ((collapse s).take maxLen) : ℚ)
      ≤ (maxLen : ℚ) * (7/10)) :
    clean_desc maxLen s
      = py_rsplit_head ((collapse s).take maxLen) ++ ['.'] := by
  have hmax := py_rfind_max3 ((collapse s).take maxLen)
  have hE := ends_with_punct_concat_period
    (py_rsplit_head ((collapse s).take maxLen))
  have hmain : clean_desc maxLen s
      = py_strip (py_rsplit_head ((collapse s).take maxLen) ++ ['.']) := by
    simp only [clean_desc]
    rw [if_pos hgt, hmax, if_neg (not_lt.mpr hcond)]
    rw [if_neg (by
      rintro ⟨_, h2⟩
      rw [hE] at h2
      exact Bool.noConfusion h2)]
  rw [hmain]
  apply py_strip_eq_self
  · intro ch hch
    rw [List.head?_append] at hch
    rcases py_rsplit_head_head? ((collapse s).take maxLen) with hrs | hrs
    · rw [hrs] at hch
      have hc : ch = '.' := by simpa using hch.symm
      subst hc
      rfl
    · rw [hrs] at hch
      cases hth : ((collapse s).take maxLen).head? with
      | none =>
        rw [hth] at hch
        have hc : ch = '.' := by simpa using hch.symm
        subst hc
        rfl
      | some a =>
        rw [hth] at hch
        have ha : a = ch := by simpa using hch
        subst ha
        rw [List.head?_take] at hth
        by_cases h0 : maxLen = 0
        · rw [if_pos h0] at hth
          exact Option.noConfusion hth
        · rw [if_neg h0] at hth
          exact collapse_head_not_ws s a hth
  · intro ch hch
    rw [List.getLast?_concat] at hch
    have hc : ch = '.' := by simpa using hch.symm
    subst hc
    rfl

/-- C8 (amended): the cleaning step operates on the
whitespace-collapsed text (single spaces, no edge whitespace); when
that text fits in the configured limit it is returned with a period
appended if nonempty and missing sentence punctuation; when longer, it
is truncated right after the last '.', '!' or '?' within the limit
whenever that position is past 70% of the limit, and otherwise at the
last whole word boundary with a period appended; and whenever the
collapsed text is nonempty — the empty raw text is the one exception,
returning the empty string — the final text ends with '.', '!' or
'?'. -/
theorem clean_description_characterisation (maxLen : ℕ) (s : List Char) :
    ((collapse s).length ≤ maxLen →
      clean_desc maxLen s =
        if collapse s = [] then []
        else if ends_with_punct (collapse s) = true then collapse s
        else collapse s ++ ['.']) ∧
    (maxLen < (collapse s).length →
      (maxLen : ℚ) * (7/10)
          < (py_rfind is_punct ((collapse s).take maxLen) : ℚ) →
      clean_desc maxLen s
        = (collapse s).take
            (py_rfind is_punct ((collapse s).take maxLen) + 1).toNat) ∧
    (maxLen < (collapse s).length →
      (py_rfind is_punct ((collapse s).take maxLen) : ℚ)
          ≤ (maxLen : ℚ) * (7/10) →
      clean_desc maxLen s
        = py_rsplit_head ((collapse s).take maxLen) ++ ['.']) ∧
    (collapse s ≠ [] → ends_with_punct (clean_desc maxLen s) = true) := by
  refine ⟨fun hle => clean_desc_short maxLen s hle,
    fun hgt hc => (clean_desc_punct_cut maxLen s hgt hc).1,
    fun hgt hc => clean_desc_word_cut maxLen s hgt hc,
    fun hne => ?_⟩
  rcases lt_or_le (maxLen : ℕ) (collapse s).length with hgt | hle
  · rcases lt_or_le ((maxLen : ℚ) * (7/10))
        ((py_rfind is_punct ((collapse s).take maxLen) : ℚ)) with hc | hc
    · exact (clean_desc_punct_cut maxLen s hgt hc).2
    · rw [clean_desc_word_cut maxLen s hgt hc]
      exact ends_with_punct_concat_period _
  · rw [clean_desc_short maxLen s hle, if_neg hne]
    by_cases hew : ends_with_punct (collapse s) = true
    · rw [if_pos hew]
      exact hew
    · rw [if_neg hew]
      exact ends_with_punct_concat_period _

/-- Concrete instantiation of the C8 characterisation: with limit 10,
"ab cd. efgh ij" collapses to itself (length 14 > 10), the last
punctuation in the first 10 characters sits at index 5 ≤ 7 = 70% of the
limit, so the text is cut at the last word boundary within the limit
("ab cd.") and a period is appended. -/
theorem clean_description_characterisation_witness :
    clean_desc 10 ("ab cd. efgh ij".data) = ("ab cd..".data) := by
  have h := clean_description_characterisation 10 ("ab cd. efgh ij".data)
  have hval : py_rfind is_punct
      ((collapse ("ab cd. efgh ij".data)).take 10) = 5 := rfl
  have hres := h.2.2.1 (by decide)
    (by rw [hval]; norm_num)
  rw [hres]
  rfl

end Invidentes
